import Mathlib

/-!
Verification of the VIPeR split-preparation logic
(`data_manager/viper.py`, class `VIPeR`): split building
(`_prepare_split`), persistence of the split set, and split selection in
`__init__`.  Randomness (`np.random.shuffle` of `np.arange(num_pids)`) is
modelled by an injected function `rand : Nat → List Nat` giving the
shuffled order for each trial; a shuffle of `arange n` is always a
permutation of `0..n-1`, which appears as a hypothesis where needed.
-/

/-- An image record `(img_path, pid, camid)` as appended by
`_prepare_split`: camera a records get camid 0, camera b records camid 1. -/
abbrev ImageRecord := String × Nat × Nat

/-- One split dictionary as built in `_prepare_split` lines 154-158:
keys `train`, `query`, `gallery`, `num_train_pids`, `num_query_pids`,
`num_gallery_pids`. -/
structure Split where
  train : List ImageRecord
  query : List ImageRecord
  gallery : List ImageRecord
  num_train_pids : Nat
  num_query_pids : Nat
  num_gallery_pids : Nat
deriving DecidableEq, Repr

/-- The record-building loop of `_prepare_split` (lines 140-145 and
147-152): `for pid, idx in enumerate(idxs): append (cam_a_imgs[idx], pid, 0);
append (cam_b_imgs[idx], pid, 1)`, starting from the empty list and
appending two records per index. -/
def appendRecords (cam_a_imgs cam_b_imgs : List String) (idxs : List Nat) : List ImageRecord :=
  (idxs.enum).foldl
    (fun acc p => acc ++ [(cam_a_imgs.getD p.2 "", p.1, 0), (cam_b_imgs.getD p.2 "", p.1, 1)])
    []

/-- One trial of `_prepare_split` (lines 134-158) for a given shuffled
`order`: `num_pids = len(cam_a_imgs)`, `num_train_pids = num_pids // 2`,
train indices are the first `num_train_pids` entries of the order, test
indices the rest; the split dictionary holds the two record lists (query
and gallery both being the test records) and the three counts. -/
def makeSplit (cam_a_imgs cam_b_imgs : List String) (order : List Nat) : Split :=
  let num_pids := cam_a_imgs.length
  let num_train_pids := num_pids / 2
  let train_idxs := order.take num_train_pids
  let test_idxs := order.drop num_train_pids
  { train := appendRecords cam_a_imgs cam_b_imgs train_idxs
  , query := appendRecords cam_a_imgs cam_b_imgs test_idxs
  , gallery := appendRecords cam_a_imgs cam_b_imgs test_idxs
  , num_train_pids := num_train_pids
  , num_query_pids := num_pids - num_train_pids
  , num_gallery_pids := num_pids - num_train_pids }

/-- Errors of the split pipeline: the length assertion of line 127
(named `LengthMismatch` by the spec) and the train/test overlap assertion
of line 138. -/
inductive SplitError where
  | LengthMismatch (a_count b_count : Nat)
  | AssertOverlap
deriving DecidableEq, Repr

/-- One trial with the overlap assertion of line 138:
`assert not bool(set(train_idxs) & set(test_idxs))`. -/
def makeSplitChecked (cam_a_imgs cam_b_imgs : List String) (order : List Nat) :
    Except SplitError Split :=
  if (order.take (cam_a_imgs.length / 2)).any
      (fun i => (order.drop (cam_a_imgs.length / 2)).contains i) then
    .error .AssertOverlap
  else
    .ok (makeSplit cam_a_imgs cam_b_imgs order)

/-- The trial loop of `_prepare_split` (lines 132-159): `splits = []`,
then one split appended per trial, aborting if an assertion fires. -/
def buildTrials (cam_a_imgs cam_b_imgs : List String) (rand : Nat → List Nat) :
    List Nat → Except SplitError (List Split)
  | [] => .ok []
  | t :: ts =>
    match makeSplitChecked cam_a_imgs cam_b_imgs (rand t) with
    | .error e => .error e
    | .ok s =>
      match buildTrials cam_a_imgs cam_b_imgs rand ts with
      | .error e => .error e
      | .ok l => .ok (s :: l)

/-- The split builder of `_prepare_split` (lines 125-159): assert
`len(cam_a_imgs) == len(cam_b_imgs)` (line 127), then run the 10-trial
loop `for _ in range(10)` (line 133). -/
def build_splits (cam_a_imgs cam_b_imgs : List String) (rand : Nat → List Nat) :
    Except SplitError (List Split) :=
  if cam_a_imgs.length = cam_b_imgs.length then
    buildTrials cam_a_imgs cam_b_imgs rand (List.range 10)
  else
    .error (.LengthMismatch cam_a_imgs.length cam_b_imgs.length)

/-- Errors of dataset assembly in `__init__`: the explicit `ValueError`
of lines 48-49 (named `SplitIndexOutOfRange` by the spec), carrying the
received id and the reported maximum (`len(splits) - 1`, the message is
"received {split_id}, but expected between 0 and {len(splits)-1}"), and
the `IndexError` Python raises on `splits[split_id]` when the (possibly
negative) index is out of bounds. -/
inductive AssemblyError where
  | SplitIndexOutOfRange (received valid_max : Int)
  | IndexError
deriving DecidableEq, Repr

/-- Split selection of `__init__` lines 48-50: raise if
`split_id >= len(splits)`, otherwise `split = splits[split_id]` with
Python list-indexing semantics (a negative index counts from the end;
an index below `-len(splits)` raises `IndexError`). -/
def selectSplit (splits : List Split) (split_id : Int) : Except AssemblyError Split :=
  if (splits.length : Int) ≤ split_id then
    .error (.SplitIndexOutOfRange split_id ((splits.length : Int) - 1))
  else
    let i : Int := if split_id < 0 then split_id + (splits.length : Int) else split_id
    if i < 0 then
      .error .IndexError
    else
      match splits.get? i.toNat with
      | some s => .ok s
      | none => .error .IndexError

/-- A JSON-like document.
Modelled from the spec: the persisted split file is "a structured,
human-readable, nested mapping/sequence document" (spec sections 4.2 and
6); the actual `write_json`/`read_json` helpers live in `utils/iotools`,
which is not part of the sources under verification.  Numbers are
restricted to naturals, which covers every value this module writes. -/
inductive J where
  | str (s : String)
  | num (n : Nat)
  | arr (xs : List J)
  | obj (fields : List (String × J))

/-- Modelled from the spec: "record tuples serialize as 3-element ordered
sequences" (spec section 4.2). -/
def serializeRecord (r : ImageRecord) : J :=
  .arr [.str r.1, .num r.2.1, .num r.2.2]

/-- Modelled from the spec: a Split serializes as a mapping with keys
`train`, `query`, `gallery`, `num_train_pids`, `num_query_pids`,
`num_gallery_pids` (spec sections 4.2 and 6), matching the dictionary
built at lines 154-158. -/
def serializeSplit (s : Split) : J :=
  .obj
    [ ("train", .arr (s.train.map serializeRecord))
    , ("query", .arr (s.query.map serializeRecord))
    , ("gallery", .arr (s.gallery.map serializeRecord))
    , ("num_train_pids", .num s.num_train_pids)
    , ("num_query_pids", .num s.num_query_pids)
    , ("num_gallery_pids", .num s.num_gallery_pids) ]

/-- Modelled from the spec: the SplitSet serializes as an ordered
sequence of Split mappings (spec section 6). -/
def serializeSplitSet (l : List Split) : J :=
  .arr (l.map serializeSplit)

/-- Key lookup in a serialized mapping document. -/
def jLookup (fields : List (String × J)) (k : String) : Option J :=
  (fields.find? (fun p => p.1 == k)).map Prod.snd

/-- Modelled from the spec: deserialization reconstructs record entries
as fixed-length 3-element ordered tuples (spec section 4.2); this is the
`read_json` of `utils/iotools` combined with the
`[tuple(item) for item in ...]` conversion of `__init__` lines 56-58.
`none` models the spec's `StoreCorrupt` failure. -/
def deserializeRecord : J → Option ImageRecord
  | .arr [.str p, .num pid, .num camid] => some (p, pid, camid)
  | _ => none

/-- Deserialize a list of serialized records, failing if any entry is
malformed. -/
def deserializeRecordList : List J → Option (List ImageRecord)
  | [] => some []
  | x :: rest =>
    match deserializeRecord x, deserializeRecordList rest with
    | some r, some rs => some (r :: rs)
    | _, _ => none

/-- Deserialize the value stored under a record-sequence key. -/
def deserializeRecords : J → Option (List ImageRecord)
  | .arr xs => deserializeRecordList xs
  | _ => none

/-- Modelled from the spec: deserialize one Split mapping, requiring all
six keys and well-formed record sequences (spec sections 4.2 and 6). -/
def deserializeSplit (j : J) : Option Split :=
  match j with
  | .obj fs =>
    match jLookup fs "train", jLookup fs "query", jLookup fs "gallery",
        jLookup fs "num_train_pids", jLookup fs "num_query_pids",
        jLookup fs "num_gallery_pids" with
    | some jt, some jq, some jg, some (.num nt), some (.num nq), some (.num ng) =>
      match deserializeRecords jt, deserializeRecords jq, deserializeRecords jg with
      | some tr, some q, some g =>
        some { train := tr, query := q, gallery := g
             , num_train_pids := nt, num_query_pids := nq, num_gallery_pids := ng }
      | _, _, _ => none
    | _, _, _, _, _, _ => none
  | _ => none

/-- Deserialize a list of serialized Split mappings. -/
def deserializeSplitList : List J → Option (List Split)
  | [] => some []
  | x :: rest =>
    match deserializeSplit x, deserializeSplitList rest with
    | some s, some l => some (s :: l)
    | _, _ => none

/-- Modelled from the spec: deserialize a whole SplitSet document. -/
def deserializeSplitSet : J → Option (List Split)
  | .arr xs => deserializeSplitList xs
  | _ => none

/-- The store-level behaviour of `_prepare_split` (lines 121-122 and 162)
followed by the `read_json` of `__init__` line 47: the store state is the
content of `splits.json` (`none` when the file does not exist).  If the
file exists nothing is built; otherwise the builder's result is
serialized and written; in both cases the final file content is
deserialized and returned together with the new store state.
The builder is abstract here, as in the spec's
`load_or_create(store_path, builder)` contract (spec section 4.2). -/
def load_or_create (store : Option J) (builder : Unit → List Split) :
    Option (List Split) × Option J :=
  match store with
  | some doc => (deserializeSplitSet doc, some doc)
  | none =>
    let ss := builder ()
    (deserializeSplitSet (serializeSplitSet ss), some (serializeSplitSet ss))

/-- `_prepare_split` as a whole, with the concrete builder: if
`splits.json` exists it is left untouched, otherwise the 10 splits are
built from the camera listings and the injected random orders and the
serialized result is written (lines 121-163). -/
def prepare_split (store : Option J) (cam_a_imgs cam_b_imgs : List String)
    (rand : Nat → List Nat) : Except SplitError (Option J) :=
  match store with
  | some doc => .ok (some doc)
  | none =>
    match build_splits cam_a_imgs cam_b_imgs rand with
    | .error e => .error e
    | .ok l => .ok (some (serializeSplitSet l))

/-- Concrete camera-a listing used to instantiate theorems. -/
def demoCamA : List String := ["a0", "a1", "a2"]

/-- Concrete camera-b listing used to instantiate theorems. -/
def demoCamB : List String := ["b0", "b1", "b2"]

/-- A concrete split with recognizable counts, used to build a concrete
10-element split set. -/
def demoSplit (k : Nat) : Split :=
  { train := [], query := [], gallery := []
  , num_train_pids := k, num_query_pids := k, num_gallery_pids := k }

/-- A concrete 10-element split set whose entries are distinguishable by
their counts. -/
def demoSplits : List Split :=
  (List.range 10).map demoSplit

/-- Spec-side description of record emission (spec section 4.1, steps 4-5):
iterate the indices in order, assign sequential new identity labels
starting at `pid`, and for each index emit `(cam_a_paths[idx], new_label, 0)`
immediately followed by `(cam_b_paths[idx], new_label, 1)`.  Stated as a
separate definition so that the loop of the code can be proved to refine
it. -/
def specEmitRecords (cam_a_paths cam_b_paths : List String) (pid : Nat) :
    List Nat → List ImageRecord
  | [] => []
  | idx :: rest =>
    (cam_a_paths.getD idx "", pid, 0) ::
      (cam_b_paths.getD idx "", pid, 1) ::
        specEmitRecords cam_a_paths cam_b_paths (pid + 1) rest

lemma foldl_append_records (a b : List String) (idxs : List Nat) (k : Nat)
    (acc : List ImageRecord) :
    (List.enumFrom k idxs).foldl
        (fun acc p => acc ++ [(a.getD p.2 "", p.1, 0), (b.getD p.2 "", p.1, 1)]) acc
      = acc ++ specEmitRecords a b k idxs := by
  induction idxs generalizing k acc with
  | nil => simp [specEmitRecords]
  | cons idx rest ih =>
    simp only [List.enumFrom, List.foldl, specEmitRecords]
    rw [ih]
    simp

lemma appendRecords_eq_specEmitRecords (a b : List String) (idxs : List Nat) :
    appendRecords a b idxs = specEmitRecords a b 0 idxs := by
  have h := foldl_append_records a b idxs 0 []
  simpa [appendRecords, List.enum] using h

lemma getD_inj_of_nodup (a : List String) (hA : a.Nodup) (i idx : Nat)
    (hi : i < a.length) (hidx : idx < a.length) :
    a[idx]?.getD "" = a[i]?.getD "" ↔ idx = i := by
  rw [List.getElem?_eq_getElem hidx, List.getElem?_eq_getElem hi]
  simp only [Option.getD_some]
  exact List.Nodup.getElem_inj_iff hA

/-- In the emitted record list, the records whose path is `a[i]` and whose
camera id is 0 are exactly the camera-a records of occurrences of index
`i`, so their number is the number of occurrences of `i` in `idxs`. -/
lemma countP_specEmitRecords_camA (a b : List String) (hA : a.Nodup) (i : Nat)
    (hi : i < a.length) (idxs : List Nat) (hin : ∀ j ∈ idxs, j < a.length) (k : Nat) :
    (specEmitRecords a b k idxs).countP
        (fun r => r.1 == a.getD i "" && r.2.2 == 0)
      = idxs.count i := by
  induction idxs generalizing k with
  | nil => simp [specEmitRecords]
  | cons idx rest ih =>
    have hidx : idx < a.length := hin idx (by simp)
    have hrest : ∀ j ∈ rest, j < a.length := fun j hj => hin j (by simp [hj])
    simp only [specEmitRecords]
    rw [List.countP_cons, List.countP_cons, ih hrest (k + 1), List.count_cons]
    by_cases h : idx = i
    · subst h
      simp
    · have h2 : ¬ (i = idx) := fun hc => h hc.symm
      simp [getD_inj_of_nodup a hA i idx hi hidx, h, h2]

/-- Counterpart of `countP_specEmitRecords_camA` for camera-b records. -/
lemma countP_specEmitRecords_camB (a b : List String) (hB : b.Nodup) (i : Nat)
    (hi : i < b.length) (idxs : List Nat) (hin : ∀ j ∈ idxs, j < b.length) (k : Nat) :
    (specEmitRecords a b k idxs).countP
        (fun r => r.1 == b.getD i "" && r.2.2 == 1)
      = idxs.count i := by
  induction idxs generalizing k with
  | nil => simp [specEmitRecords]
  | cons idx rest ih =>
    have hidx : idx < b.length := hin idx (by simp)
    have hrest : ∀ j ∈ rest, j < b.length := fun j hj => hin j (by simp [hj])
    simp only [specEmitRecords]
    rw [List.countP_cons, List.countP_cons, ih hrest (k + 1), List.count_cons]
    by_cases h : idx = i
    · subst h
      simp
    · have h2 : ¬ (i = idx) := fun hc => h hc.symm
      simp [getD_inj_of_nodup b hB i idx hi hidx, h, h2]

lemma count_take_add_count_drop (order : List Nat) (m i : Nat) :
    (order.take m).count i + (order.drop m).count i = order.count i := by
  conv_rhs => rw [← List.take_append_drop m order]
  rw [List.count_append]

lemma count_of_perm_range (order : List Nat) (n : Nat)
    (hperm : order.Perm (List.range n)) (i : Nat) :
    order.count i = if i < n then 1 else 0 := by
  rw [hperm.count_eq]
  by_cases h : i < n
  · rw [if_pos h]
    exact List.count_eq_one_of_mem (List.nodup_range n) (List.mem_range.mpr h)
  · rw [if_neg h]
    exact List.count_eq_zero_of_not_mem (by simpa using h)

/-- C1: For every split produced by the split builder from equal-length
camera lists of length `num_pids` (with the trial order a permutation of
`0..num_pids-1` as produced by `np.random.shuffle(np.arange(num_pids))`,
and the listings duplicate-free as directory listings are), the train and
test index sets are disjoint, their union is exactly `{0,...,num_pids-1}`,
and each raw index `i` contributes exactly two records — one per camera —
to exactly one of train or test: its camera-a record and its camera-b
record each occur exactly once across train and test combined, and each
side holds equally many camera-a as camera-b records of `i`. -/
theorem viper_C1_split_partition
    (cam_a_imgs cam_b_imgs : List String) (n : Nat) (order : List Nat) (i : Nat)
    (ha : cam_a_imgs.length = n) (hb : cam_b_imgs.length = n)
    (hperm : order.Perm (List.range n))
    (hA : cam_a_imgs.Nodup) (hB : cam_b_imgs.Nodup) :
    (¬ (i ∈ order.take (n / 2) ∧ i ∈ order.drop (n / 2))) ∧
    ((i ∈ order.take (n / 2) ∨ i ∈ order.drop (n / 2)) ↔ i < n) ∧
    (i < n →
      ((makeSplit cam_a_imgs cam_b_imgs order).train.countP
            (fun r => r.1 == cam_a_imgs.getD i "" && r.2.2 == 0)
          + (makeSplit cam_a_imgs cam_b_imgs order).query.countP
              (fun r => r.1 == cam_a_imgs.getD i "" && r.2.2 == 0) = 1) ∧
      ((makeSplit cam_a_imgs cam_b_imgs order).train.countP
            (fun r => r.1 == cam_b_imgs.getD i "" && r.2.2 == 1)
          + (makeSplit cam_a_imgs cam_b_imgs order).query.countP
              (fun r => r.1 == cam_b_imgs.getD i "" && r.2.2 == 1) = 1) ∧
      ((makeSplit cam_a_imgs cam_b_imgs order).train.countP
            (fun r => r.1 == cam_a_imgs.getD i "" && r.2.2 == 0)
        = (makeSplit cam_a_imgs cam_b_imgs order).train.countP
            (fun r => r.1 == cam_b_imgs.getD i "" && r.2.2 == 1)) ∧
      ((makeSplit cam_a_imgs cam_b_imgs order).query.countP
            (fun r => r.1 == cam_a_imgs.getD i "" && r.2.2 == 0)
        = (makeSplit cam_a_imgs cam_b_imgs order).query.countP
            (fun r => r.1 == cam_b_imgs.getD i "" && r.2.2 == 1))) := by
  have hsum : (order.take (n / 2)).count i + (order.drop (n / 2)).count i = order.count i :=
    count_take_add_count_drop order (n / 2) i
  have hord : order.count i = if i < n then 1 else 0 := count_of_perm_range order n hperm i
  have hord_le : order.count i ≤ 1 := by
    rw [hord]
    split <;> omega
  refine ⟨?_, ?_, ?_⟩
  · rintro ⟨h1, h2⟩
    have c1 : 0 < (order.take (n / 2)).count i := List.count_pos_iff.mpr h1
    have c2 : 0 < (order.drop (n / 2)).count i := List.count_pos_iff.mpr h2
    omega
  · calc (i ∈ order.take (n / 2) ∨ i ∈ order.drop (n / 2))
        ↔ i ∈ order.take (n / 2) ++ order.drop (n / 2) := List.mem_append.symm
      _ ↔ i ∈ order := by rw [List.take_append_drop]
      _ ↔ i ∈ List.range n := hperm.mem_iff
      _ ↔ i < n := List.mem_range
  · intro hi
    have hiA : i < cam_a_imgs.length := by rw [ha]; exact hi
    have hiB : i < cam_b_imgs.length := by rw [hb]; exact hi
    have hmem_lt : ∀ j ∈ order, j < n := fun j hj => List.mem_range.mp (hperm.mem_iff.mp hj)
    have hin_tr_a : ∀ j ∈ order.take (n / 2), j < cam_a_imgs.length := fun j hj => by
      rw [ha]; exact hmem_lt j (List.mem_of_mem_take hj)
    have hin_te_a : ∀ j ∈ order.drop (n / 2), j < cam_a_imgs.length := fun j hj => by
      rw [ha]; exact hmem_lt j (List.mem_of_mem_drop hj)
    have hin_tr_b : ∀ j ∈ order.take (n / 2), j < cam_b_imgs.length := fun j hj => by
      rw [hb]; exact hmem_lt j (List.mem_of_mem_take hj)
    have hin_te_b : ∀ j ∈ order.drop (n / 2), j < cam_b_imgs.length := fun j hj => by
      rw [hb]; exact hmem_lt j (List.mem_of_mem_drop hj)
    have htrain : (makeSplit cam_a_imgs cam_b_imgs order).train
        = specEmitRecords cam_a_imgs cam_b_imgs 0 (order.take (n / 2)) := by
      simp only [makeSplit, appendRecords_eq_specEmitRecords, ha]
    have hquery : (makeSplit cam_a_imgs cam_b_imgs order).query
        = specEmitRecords cam_a_imgs cam_b_imgs 0 (order.drop (n / 2)) := by
      simp only [makeSplit, appendRecords_eq_specEmitRecords, ha]
    rw [htrain, hquery,
      countP_specEmitRecords_camA cam_a_imgs cam_b_imgs hA i hiA (order.take (n / 2)) hin_tr_a 0,
      countP_specEmitRecords_camA cam_a_imgs cam_b_imgs hA i hiA (order.drop (n / 2)) hin_te_a 0,
      countP_specEmitRecords_camB cam_a_imgs cam_b_imgs hB i hiB (order.take (n / 2)) hin_tr_b 0,
      countP_specEmitRecords_camB cam_a_imgs cam_b_imgs hB i hiB (order.drop (n / 2)) hin_te_b 0]
    rw [hord, if_pos hi] at hsum
    exact ⟨hsum, hsum, rfl, rfl⟩

/-- Witness for C1 at `cam_a = demoCamA`, `cam_b = demoCamB`, `n = 3`,
`order = [0, 1, 2]`, `i = 1`. -/
theorem viper_C1_split_partition_witness :
    (¬ ((1 : Nat) ∈ (List.range 3).take (3 / 2) ∧ (1 : Nat) ∈ (List.range 3).drop (3 / 2))) ∧
    (((1 : Nat) ∈ (List.range 3).take (3 / 2) ∨ (1 : Nat) ∈ (List.range 3).drop (3 / 2)) ↔
      1 < 3) ∧
    ((1 : Nat) < 3 →
      ((makeSplit demoCamA demoCamB (List.range 3)).train.countP
            (fun r => r.1 == demoCamA.getD 1 "" && r.2.2 == 0)
          + (makeSplit demoCamA demoCamB (List.range 3)).query.countP
              (fun r => r.1 == demoCamA.getD 1 "" && r.2.2 == 0) = 1) ∧
      ((makeSplit demoCamA demoCamB (List.range 3)).train.countP
            (fun r => r.1 == demoCamB.getD 1 "" && r.2.2 == 1)
          + (makeSplit demoCamA demoCamB (List.range 3)).query.countP
              (fun r => r.1 == demoCamB.getD 1 "" && r.2.2 == 1) = 1) ∧
      ((makeSplit demoCamA demoCamB (List.range 3)).train.countP
            (fun r => r.1 == demoCamA.getD 1 "" && r.2.2 == 0)
        = (makeSplit demoCamA demoCamB (List.range 3)).train.countP
            (fun r => r.1 == demoCamB.getD 1 "" && r.2.2 == 1)) ∧
      ((makeSplit demoCamA demoCamB (List.range 3)).query.countP
            (fun r => r.1 == demoCamA.getD 1 "" && r.2.2 == 0)
        = (makeSplit demoCamA demoCamB (List.range 3)).query.countP
            (fun r => r.1 == demoCamB.getD 1 "" && r.2.2 == 1))) :=
  viper_C1_split_partition demoCamA demoCamB 3 (List.range 3) 1
    (by decide) (by decide) (List.Perm.refl _) (by decide) (by decide)

lemma makeSplitChecked_ok_eq (a b : List String) (order : List Nat) (s : Split)
    (h : makeSplitChecked a b order = .ok s) : s = makeSplit a b order := by
  unfold makeSplitChecked at h
  split at h
  · cases h
  · cases h
    rfl

lemma buildTrials_ok_mem (a b : List String) (rand : Nat → List Nat) (ts : List Nat)
    (l : List Split) (h : buildTrials a b rand ts = .ok l) :
    ∀ s ∈ l, ∃ t ∈ ts, makeSplitChecked a b (rand t) = .ok s := by
  induction ts generalizing l with
  | nil =>
    cases h
    intro s hs
    cases hs
  | cons t ts ih =>
    unfold buildTrials at h
    cases h1 : makeSplitChecked a b (rand t) with
    | error e => rw [h1] at h; cases h
    | ok s0 =>
      rw [h1] at h
      cases h2 : buildTrials a b rand ts with
      | error e => rw [h2] at h; cases h
      | ok l0 =>
        rw [h2] at h
        cases h
        intro s hs
        rw [List.mem_cons] at hs
        rcases hs with hs | hs
        · exact ⟨t, by simp, by rw [hs]; exact h1⟩
        · obtain ⟨t0, ht0, hok0⟩ := ih l0 h2 s hs
          exact ⟨t0, by simp [ht0], hok0⟩

lemma buildTrials_all_ok (a b : List String) (rand : Nat → List Nat) (ts : List Nat)
    (h : ∀ t ∈ ts, makeSplitChecked a b (rand t) = .ok (makeSplit a b (rand t))) :
    buildTrials a b rand ts = .ok (ts.map (fun t => makeSplit a b (rand t))) := by
  induction ts with
  | nil => rfl
  | cons t ts ih =>
    unfold buildTrials
    rw [h t (by simp), ih (fun t0 ht0 => h t0 (by simp [ht0]))]
    rfl

lemma buildTrials_error_overlap (a b : List String) (rand : Nat → List Nat) (ts : List Nat)
    (e : SplitError) (h : buildTrials a b rand ts = .error e) : e = .AssertOverlap := by
  induction ts with
  | nil => cases h
  | cons t ts ih =>
    unfold buildTrials at h
    cases h1 : makeSplitChecked a b (rand t) with
    | error e0 =>
      rw [h1] at h
      cases h
      unfold makeSplitChecked at h1
      split at h1
      · cases h1
        rfl
      · cases h1
    | ok s0 =>
      rw [h1] at h
      cases h2 : buildTrials a b rand ts with
      | error e0 =>
        rw [h2] at h
        cases h
        exact ih h2
      | ok l0 => rw [h2] at h; cases h

lemma makeSplitChecked_ok_of_nodup (a b : List String) (order : List Nat)
    (h : order.Nodup) : makeSplitChecked a b order = .ok (makeSplit a b order) := by
  unfold makeSplitChecked
  rw [if_neg]
  intro hcontra
  rw [List.any_eq_true] at hcontra
  obtain ⟨i, hi_take, hi_drop⟩ := hcontra
  have hmem : i ∈ order.drop (a.length / 2) := by
    simpa using hi_drop
  have c1 : 0 < (order.take (a.length / 2)).count i := List.count_pos_iff.mpr hi_take
  have c2 : 0 < (order.drop (a.length / 2)).count i := List.count_pos_iff.mpr hmem
  have hsum := count_take_add_count_drop order (a.length / 2) i
  have hle : order.count i ≤ 1 := List.nodup_iff_count_le_one.mp h i
  omega

/-- C2: every split built from camera lists of length `num_pids` records
`num_train_pids = num_pids // 2` and
`num_query_pids = num_gallery_pids = num_pids - num_train_pids`; the
values depend only on the list length, hence are identical for every
split of the produced set. -/
theorem viper_C2_counts (cam_a_imgs cam_b_imgs : List String) (rand : Nat → List Nat)
    (l : List Split) (s : Split)
    (hok : build_splits cam_a_imgs cam_b_imgs rand = .ok l) (hs : s ∈ l) :
    s.num_train_pids = cam_a_imgs.length / 2 ∧
    s.num_query_pids = cam_a_imgs.length - cam_a_imgs.length / 2 ∧
    s.num_gallery_pids = cam_a_imgs.length - cam_a_imgs.length / 2 := by
  unfold build_splits at hok
  split at hok
  · obtain ⟨t, _, hone⟩ := buildTrials_ok_mem cam_a_imgs cam_b_imgs rand (List.range 10) l hok s hs
    have hs_eq := makeSplitChecked_ok_eq cam_a_imgs cam_b_imgs (rand t) s hone
    subst hs_eq
    exact ⟨rfl, rfl, rfl⟩
  · cases hok

/-- Witness for C2 at the concrete build
`build_splits demoCamA demoCamB (fun t => List.range 3)`. -/
theorem viper_C2_counts_witness :
    (makeSplit demoCamA demoCamB (List.range 3)).num_train_pids = demoCamA.length / 2 ∧
    (makeSplit demoCamA demoCamB (List.range 3)).num_query_pids
      = demoCamA.length - demoCamA.length / 2 ∧
    (makeSplit demoCamA demoCamB (List.range 3)).num_gallery_pids
      = demoCamA.length - demoCamA.length / 2 :=
  viper_C2_counts demoCamA demoCamB (fun t => List.range 3)
    ((List.range 10).map (fun t => makeSplit demoCamA demoCamB (List.range 3)))
    (makeSplit demoCamA demoCamB (List.range 3))
    (by rfl) (by decide)

/-- C3: for every trial, the train sequence is exactly the spec-described
emission over the train indices (iterate in permutation order, sequential
new labels from 0, camera-a record immediately followed by the camera-b
record), and query and gallery are the same emission over the test
indices. -/
theorem viper_C3_record_emission (cam_a_imgs cam_b_imgs : List String) (order : List Nat) :
    (makeSplit cam_a_imgs cam_b_imgs order).train
        = specEmitRecords cam_a_imgs cam_b_imgs 0 (order.take (cam_a_imgs.length / 2)) ∧
    (makeSplit cam_a_imgs cam_b_imgs order).query
        = specEmitRecords cam_a_imgs cam_b_imgs 0 (order.drop (cam_a_imgs.length / 2)) ∧
    (makeSplit cam_a_imgs cam_b_imgs order).gallery
        = specEmitRecords cam_a_imgs cam_b_imgs 0 (order.drop (cam_a_imgs.length / 2)) := by
  refine ⟨?_, ?_, ?_⟩ <;> simp only [makeSplit, appendRecords_eq_specEmitRecords]

/-- C9: within every split produced by the builder, the query and the
gallery sequences are identical in content and order. -/
theorem viper_C9_query_eq_gallery (cam_a_imgs cam_b_imgs : List String)
    (rand : Nat → List Nat) (l : List Split) (s : Split)
    (hok : build_splits cam_a_imgs cam_b_imgs rand = .ok l) (hs : s ∈ l) :
    s.query = s.gallery := by
  unfold build_splits at hok
  split at hok
  · obtain ⟨t, _, hone⟩ := buildTrials_ok_mem cam_a_imgs cam_b_imgs rand (List.range 10) l hok s hs
    have hs_eq := makeSplitChecked_ok_eq cam_a_imgs cam_b_imgs (rand t) s hone
    subst hs_eq
    rfl
  · cases hok

/-- Witness for C9 at the concrete build
`build_splits demoCamA demoCamB (fun t => List.range 3)`. -/
theorem viper_C9_query_eq_gallery_witness :
    (makeSplit demoCamA demoCamB (List.range 3)).query
      = (makeSplit demoCamA demoCamB (List.range 3)).gallery :=
  viper_C9_query_eq_gallery demoCamA demoCamB (fun t => List.range 3)
    ((List.range 10).map (fun t => makeSplit demoCamA demoCamB (List.range 3)))
    (makeSplit demoCamA demoCamB (List.range 3))
    (by rfl) (by decide)

/-- C7: for equal-length camera lists and shuffled orders that are
permutations of `0..num_pids-1` (as `np.random.shuffle(np.arange(...))`
always produces), the builder succeeds with exactly 10 splits — the trial
count hard-coded in `for _ in range(10)` — and `_prepare_split` persists
exactly that split set when no store file exists. -/
theorem viper_C7_ten_splits (cam_a_imgs cam_b_imgs : List String) (rand : Nat → List Nat)
    (hlen : cam_a_imgs.length = cam_b_imgs.length)
    (hrand : ∀ t, t < 10 → (rand t).Perm (List.range cam_a_imgs.length)) :
    build_splits cam_a_imgs cam_b_imgs rand
        = .ok ((List.range 10).map (fun t => makeSplit cam_a_imgs cam_b_imgs (rand t))) ∧
    ((List.range 10).map (fun t => makeSplit cam_a_imgs cam_b_imgs (rand t))).length = 10 ∧
    prepare_split none cam_a_imgs cam_b_imgs rand
        = .ok (some (serializeSplitSet
            ((List.range 10).map (fun t => makeSplit cam_a_imgs cam_b_imgs (rand t))))) := by
  have hok : build_splits cam_a_imgs cam_b_imgs rand
      = .ok ((List.range 10).map (fun t => makeSplit cam_a_imgs cam_b_imgs (rand t))) := by
    unfold build_splits
    rw [if_pos hlen]
    apply buildTrials_all_ok
    intro t ht
    apply makeSplitChecked_ok_of_nodup
    have hperm := hrand t (List.mem_range.mp ht)
    exact hperm.nodup_iff.mpr (List.nodup_range cam_a_imgs.length)
  refine ⟨hok, by simp, ?_⟩
  unfold prepare_split
  rw [hok]

/-- Witness for C7 at `demoCamA`/`demoCamB` with the identity order for
every trial. -/
theorem viper_C7_ten_splits_witness :
    build_splits demoCamA demoCamB (fun t => List.range 3)
        = .ok ((List.range 10).map (fun t => makeSplit demoCamA demoCamB (List.range 3))) ∧
    ((List.range 10).map (fun t => makeSplit demoCamA demoCamB (List.range 3))).length = 10 ∧
    prepare_split none demoCamA demoCamB (fun t => List.range 3)
        = .ok (some (serializeSplitSet
            ((List.range 10).map (fun t => makeSplit demoCamA demoCamB (List.range 3))))) :=
  viper_C7_ten_splits demoCamA demoCamB (fun t => List.range 3)
    (by decide) (fun t ht => List.Perm.refl _)

/-- C8: the split builder fails with `LengthMismatch` (reporting the two
lengths) exactly when the camera-a and camera-b listings have unequal
lengths, and with equal lengths it proceeds into the trial loop. -/
theorem viper_C8_length_mismatch (cam_a_imgs cam_b_imgs : List String)
    (rand : Nat → List Nat) :
    (build_splits cam_a_imgs cam_b_imgs rand
        = .error (.LengthMismatch cam_a_imgs.length cam_b_imgs.length)
      ↔ cam_a_imgs.length ≠ cam_b_imgs.length) ∧
    (cam_a_imgs.length = cam_b_imgs.length →
      build_splits cam_a_imgs cam_b_imgs rand
        = buildTrials cam_a_imgs cam_b_imgs rand (List.range 10)) := by
  constructor
  · constructor
    · intro herr heq
      unfold build_splits at herr
      rw [if_pos heq] at herr
      have := buildTrials_error_overlap cam_a_imgs cam_b_imgs rand (List.range 10) _ herr
      cases this
    · intro hne
      unfold build_splits
      rw [if_neg hne]
  · intro heq
    unfold build_splits
    rw [if_pos heq]

/-- Witness for C8 at a 5-entry camera-a list against a 6-entry camera-b
list. -/
theorem viper_C8_length_mismatch_witness :
    (build_splits ["a0", "a1", "a2", "a3", "a4"] ["b0", "b1", "b2", "b3", "b4", "b5"]
          (fun t => [])
        = .error (.LengthMismatch
            (["a0", "a1", "a2", "a3", "a4"] : List String).length
            (["b0", "b1", "b2", "b3", "b4", "b5"] : List String).length)
      ↔ (["a0", "a1", "a2", "a3", "a4"] : List String).length
          ≠ (["b0", "b1", "b2", "b3", "b4", "b5"] : List String).length) ∧
    ((["a0", "a1", "a2", "a3", "a4"] : List String).length
        = (["b0", "b1", "b2", "b3", "b4", "b5"] : List String).length →
      build_splits ["a0", "a1", "a2", "a3", "a4"] ["b0", "b1", "b2", "b3", "b4", "b5"]
          (fun t => [])
        = buildTrials ["a0", "a1", "a2", "a3", "a4"] ["b0", "b1", "b2", "b3", "b4", "b5"]
            (fun t => []) (List.range 10)) :=
  viper_C8_length_mismatch ["a0", "a1", "a2", "a3", "a4"]
    ["b0", "b1", "b2", "b3", "b4", "b5"] (fun t => [])

lemma deserializeRecord_serializeRecord (r : ImageRecord) :
    deserializeRecord (serializeRecord r) = some r := rfl

lemma deserializeRecordList_map (l : List ImageRecord) :
    deserializeRecordList (l.map serializeRecord) = some l := by
  induction l with
  | nil => rfl
  | cons r rest ih =>
    simp only [List.map_cons, deserializeRecordList, deserializeRecord_serializeRecord, ih]

lemma deserializeRecords_arr_map (l : List ImageRecord) :
    deserializeRecords (.arr (l.map serializeRecord)) = some l := by
  simp only [deserializeRecords, deserializeRecordList_map]

lemma deserializeSplit_serializeSplit (s : Split) :
    deserializeSplit (serializeSplit s) = some s := by
  obtain ⟨t, q, g, nt, nq, ng⟩ := s
  simp [deserializeSplit, serializeSplit, jLookup, deserializeRecords_arr_map]

lemma deserializeSplitList_map (l : List Split) :
    deserializeSplitList (l.map serializeSplit) = some l := by
  induction l with
  | nil => rfl
  | cons s rest ih =>
    simp only [List.map_cons, deserializeSplitList, deserializeSplit_serializeSplit, ih]

/-- C6: deserializing the serialized form of a SplitSet yields the
original value — the same record 3-tuples, counts and ordering.  The
deserializer only accepts 3-element record sequences and rebuilds them as
ordered 3-tuples. -/
theorem viper_C6_roundtrip (l : List Split) :
    deserializeSplitSet (serializeSplitSet l) = some l := by
  simp only [serializeSplitSet, deserializeSplitSet, deserializeSplitList_map]

/-- C5: if the persisted split file exists (`store = some doc`), the
load-or-create step returns its deserialized content unchanged and never
invokes the builder (the result is the same for any two builders); and
two consecutive invocations against the same path return the same value
even when the two builders differ (cache behaviour). -/
theorem viper_C5_cache (doc : J) (b1 b2 : Unit → List Split) (store : Option J) :
    load_or_create (some doc) b1 = (deserializeSplitSet doc, some doc) ∧
    load_or_create (some doc) b1 = load_or_create (some doc) b2 ∧
    (load_or_create (load_or_create store b1).2 b2).1 = (load_or_create store b1).1 := by
  refine ⟨rfl, rfl, ?_⟩
  cases store with
  | some d => rfl
  | none => rfl

/-- Counterexample to C4 as stated: `split_id = -1` is not in `[0, 10)`,
yet assembly on a 10-element split set does not fail — the check at line
48 only tests `split_id >= len(splits)`, and Python's negative indexing
then selects the last split. -/
theorem viper_C4_counterexample :
    selectSplit demoSplits (-1) = .ok (demoSplit 9) ∧
    ¬ (0 ≤ (-1 : Int) ∧ (-1 : Int) < (demoSplits.length : Int)) := by
  constructor
  · rfl
  · decide

/-- C4 (amended): assembly fails with `SplitIndexOutOfRange` — reporting
the received id and the valid maximum `len(splits) - 1` — exactly when
`split_id >= len(splits)`; in particular index 10 on a 10-element set
fails, but negative ids below the lower end of `[0, n)` do not raise this
error. -/
theorem viper_C4_amended (splits : List Split) (split_id : Int) :
    selectSplit splits split_id
        = .error (.SplitIndexOutOfRange split_id ((splits.length : Int) - 1))
      ↔ (splits.length : Int) ≤ split_id := by
  unfold selectSplit
  by_cases h : (splits.length : Int) ≤ split_id
  · simp [h]
  · rw [if_neg h]
    simp only [h, iff_false]
    intro hcontra
    by_cases h2 : (if split_id < 0 then split_id + (splits.length : Int) else split_id) < 0
    · rw [if_pos h2] at hcontra
      cases hcontra
    · rw [if_neg h2] at hcontra
      cases hget : splits.get?
          (if split_id < 0 then split_id + (splits.length : Int) else split_id).toNat with
      | none => rw [hget] at hcontra; cases hcontra
      | some s => rw [hget] at hcontra; cases hcontra

/-- C10: on a 10-element split set, every `split_id` in `[-10, -1]`
passes the bounds check and assembly selects (and exposes) the split at
position `10 + split_id`. -/
theorem viper_C10_negative_ids (splits : List Split) (split_id : Int)
    (hlen : splits.length = 10) (h1 : -10 ≤ split_id) (h2 : split_id ≤ -1) :
    (splits.get? ((10 + split_id).toNat)).map Except.ok
      = some (selectSplit splits split_id) := by
  have hneg : split_id < 0 := by omega
  have hcast : (splits.length : Int) = 10 := by rw [hlen]; rfl
  have hnotbig : ¬ ((splits.length : Int) ≤ split_id) := by rw [hcast]; omega
  have hival : ¬ (split_id + (splits.length : Int) < 0) := by rw [hcast]; omega
  have htn : (split_id + (splits.length : Int)).toNat = (10 + split_id).toNat := by
    rw [hcast]; omega
  have hlt : (10 + split_id).toNat < splits.length := by rw [hlen]; omega
  have hget : splits.get? ((10 + split_id).toNat)
      = some (splits.get ⟨(10 + split_id).toNat, hlt⟩) := List.get?_eq_get hlt
  unfold selectSplit
  rw [if_neg hnotbig]
  simp only [if_pos hneg]
  rw [if_neg hival, htn, hget]
  rfl

/-- Witness for C10 at the concrete 10-element split set `demoSplits`
and `split_id = -3`. -/
theorem viper_C10_negative_ids_witness :
    (demoSplits.get? (((10 : Int) + (-3 : Int)).toNat)).map Except.ok
      = some (selectSplit demoSplits (-3)) :=
  viper_C10_negative_ids demoSplits (-3) (by decide) (by decide) (by decide)
